import Mathlib

/-!
Verification of the phonebank device monitor's resilience and performance
core against its specification.  The definitions below are shallow
embeddings of the JavaScript classes in `src/core/ResilienceManager.js`,
`src/core/PerformanceManager.js` and the orchestration in
`src/PhonebankMonitor.js` (`checkDevice`, `performMonitoringCycle`).
Machine time is modelled by natural-number milliseconds, JavaScript `Map`
objects by insertion-ordered association lists, and fallible operations by
`Except`.
-/

namespace Phonebank

/-! ### Association lists (JavaScript `Map` semantics)

`Map.get` returns the value for a key, `Map.set` overwrites in place when
the key exists (preserving insertion order) and appends otherwise,
`Map.delete` removes the key. -/

def alistGet {α : Type} (k : String) : List (String × α) → Option α
  | [] => none
  | (k2, v) :: rest => if k2 = k then some v else alistGet k rest

def alistSet {α : Type} (k : String) (v : α) : List (String × α) → List (String × α)
  | [] => [(k, v)]
  | (k2, v2) :: rest =>
      if k2 = k then (k2, v) :: rest else (k2, v2) :: alistSet k v rest

def alistErase {α : Type} (k : String) : List (String × α) → List (String × α)
  | [] => []
  | (k2, v2) :: rest =>
      if k2 = k then rest else (k2, v2) :: alistErase k rest

/-! ### JavaScript truthiness defaults

The constructors use expressions of the form `config.x || defaultValue`:
the right operand is taken whenever the left is absent or falsy (`false`,
`0`). -/

def jsOrBool (v : Option Bool) (d : Bool) : Bool :=
  match v with
  | some b => if b then b else d
  | none => d

def jsOrNat (v : Option Nat) (d : Nat) : Nat :=
  match v with
  | some n => if n ≠ 0 then n else d
  | none => d

/-! ### RetryManager (`src/core/ResilienceManager.js`, lines 148-194)

`executeWithRetry` runs `operation` for attempts `0, 1, ..., maxRetries`;
a success at attempt `a` resolves `{success: true, result, attempt: a+1}`,
a failure at attempt `a < maxRetries` sleeps
`retryDelay * backoffMultiplier ^ a` (backoffMultiplier is fixed at 1.5)
and continues, and when every attempt has failed it RESOLVES (it never
rejects) with `{success: false, attempt: maxRetries+1, error: lastError}`.
The embedding takes the operation as a function from the attempt index to
an `Except` outcome and records the number of invocations and the sequence
of back-off delays. -/

structure RetryOutcome (E R : Type) where
  success : Bool
  result : Option R
  attempt : Nat
  error : Option E
deriving Repr, DecidableEq

structure RetryTrace (E R : Type) where
  calls : Nat
  delays : List ℚ
  outcome : RetryOutcome E R
deriving Repr, DecidableEq

def isErr {E R : Type} : Except E R → Bool
  | .error _ => true
  | .ok _ => false

def errOf {E R : Type} : Except E R → Option E
  | .error e => some e
  | .ok _ => none

def retryGo {E R : Type} (op : Nat → Except E R) (retryDelay : ℚ) (maxRetries : Nat) :
    Nat → Nat → Option E → RetryTrace E R
  | _, 0, last => ⟨0, [], ⟨false, none, maxRetries + 1, last⟩⟩
  | a, fuel + 1, last =>
    match op a with
    | .ok r => ⟨1, [], ⟨true, some r, a + 1, none⟩⟩
    | .error e =>
        if a < maxRetries then
          let rest := retryGo op retryDelay maxRetries (a + 1) fuel (some e)
          ⟨rest.calls + 1, retryDelay * (3 / 2 : ℚ) ^ a :: rest.delays, rest.outcome⟩
        else
          ⟨1, [], ⟨false, none, maxRetries + 1, some e⟩⟩

def executeWithRetry {E R : Type} (op : Nat → Except E R) (maxRetries : Nat)
    (retryDelay : ℚ) : RetryTrace E R :=
  retryGo op retryDelay maxRetries 0 (maxRetries + 1) none

/-! ### CacheManager (`src/core/PerformanceManager.js`, lines 3-125)

State: `cache` maps a key to `{data, timestamp}`, `accessTimes` maps a key
to its last access time; `get` treats an entry as expired exactly when
`now - timestamp > ttl` and then deletes it and counts a miss; `set`
evicts the entry with the oldest access time when the table is full.  The
constructor reads `enabled` from `config.monitoring.enableCache || true`.
-/

structure CacheState (V : Type) where
  enabled : Bool
  maxSize : Nat
  ttl : Nat
  cache : List (String × (V × Nat))
  accessTimes : List (String × Nat)
  hitCount : Nat
  missCount : Nat

def CacheState.init (V : Type) (enableCache : Option Bool)
    (cacheMaxSize cacheExpiration : Option Nat) : CacheState V :=
  { enabled := jsOrBool enableCache true
    maxSize := jsOrNat cacheMaxSize 1000
    ttl := jsOrNat cacheExpiration 300000
    cache := []
    accessTimes := []
    hitCount := 0
    missCount := 0 }

def CacheState.get {V : Type} (s : CacheState V) (key : String) (now : Nat) :
    Option V × CacheState V :=
  if s.enabled = false then (none, s)
  else
    match alistGet key s.cache with
    | none => (none, { s with missCount := s.missCount + 1 })
    | some (d, ts) =>
        if now - ts > s.ttl then
          (none, { s with
            cache := alistErase key s.cache
            accessTimes := alistErase key s.accessTimes
            missCount := s.missCount + 1 })
        else
          (some d, { s with
            accessTimes := alistSet key now s.accessTimes
            hitCount := s.hitCount + 1 })

def CacheState.evictOldest {V : Type} (s : CacheState V) (now : Nat) : CacheState V :=
  let scan := s.accessTimes.foldl
    (fun acc kv => if kv.2 < acc.2 then (some kv.1, kv.2) else acc)
    ((none : Option String), now)
  match scan.1 with
  | some k =>
      { s with cache := alistErase k s.cache, accessTimes := alistErase k s.accessTimes }
  | none => s

def CacheState.set {V : Type} (s : CacheState V) (key : String) (data : V)
    (now : Nat) : CacheState V :=
  if s.enabled = false then s
  else
    let s1 := if s.cache.length ≥ s.maxSize then s.evictOldest now else s
    { s1 with
      cache := alistSet key (data, now) s1.cache
      accessTimes := alistSet key now s1.accessTimes }

/-! ### CircuitBreaker (`src/core/ResilienceManager.js`, lines 213-285)

State machine over CLOSED / OPEN / HALF_OPEN.  `execute` fails fast while
OPEN (returning the fallback, or the default object
`{success: false, error: "Circuit breaker is OPEN"}`) unless
`now - lastFailureTime > resetTimeout`, in which case it moves to
HALF_OPEN and lets the operation through.  A resolving operation triggers
`onSuccess`, a rejecting one triggers `onFailure` and is rethrown.
`lastFailureTime` starts as `null`, which JavaScript arithmetic coerces to
0, so it is modelled as the natural number 0.  The periodic decay timer
(failureCount - 1 every monitoringPeriod while CLOSED) only ever lowers
`failureCount` and is modelled by `decayTick`. -/

inductive CBCase
  | CLOSED
  | OPEN
  | HALF_OPEN
deriving Repr, DecidableEq

structure CBState where
  failureThreshold : Nat
  resetTimeout : Nat
  state : CBCase
  failureCount : Nat
  lastFailureTime : Nat
  successCount : Nat
  requestCount : Nat
deriving Repr, DecidableEq

def CBState.init (failureThreshold resetTimeout : Option Nat) : CBState :=
  { failureThreshold := jsOrNat failureThreshold 5
    resetTimeout := jsOrNat resetTimeout 60000
    state := CBCase.CLOSED
    failureCount := 0
    lastFailureTime := 0
    successCount := 0
    requestCount := 0 }

def CBState.onSuccess (cb : CBState) : CBState :=
  let cb1 := { cb with successCount := cb.successCount + 1 }
  if cb1.state = CBCase.HALF_OPEN then
    { cb1 with state := CBCase.CLOSED, failureCount := 0 }
  else cb1

def CBState.onFailure (cb : CBState) (now : Nat) : CBState :=
  let cb1 := { cb with failureCount := cb.failureCount + 1, lastFailureTime := now }
  if cb1.failureCount ≥ cb1.failureThreshold then
    { cb1 with state := CBCase.OPEN }
  else cb1

def CBState.decayTick (cb : CBState) : CBState :=
  if cb.state = CBCase.CLOSED then
    { cb with failureCount := cb.failureCount - 1 }
  else cb

inductive CBExec (E V : Type)
  | failFast
  | ran (r : Except E V)
deriving Repr

def CBState.execute {E V : Type} (cb : CBState) (now : Nat)
    (opOutcome : Except E V) : CBState × CBExec E V :=
  let gate : Option CBState :=
    if cb.state = CBCase.OPEN then
      if now - cb.lastFailureTime > cb.resetTimeout then
        some { cb with state := CBCase.HALF_OPEN }
      else none
    else some cb
  match gate with
  | none => (cb, CBExec.failFast)
  | some cb1 =>
      let cb2 := { cb1 with requestCount := cb1.requestCount + 1 }
      match opOutcome with
      | .ok v => (cb2.onSuccess, CBExec.ran (.ok v))
      | .error e => (cb2.onFailure now, CBExec.ran (.error e))

/-! ### ConcurrencyManager (`src/core/PerformanceManager.js`, lines 127-209)

`execute(job, priority)` runs the job at once when
`activeJobs.size < maxConcurrency`, otherwise pushes it on the queue and
re-sorts by `priorityOrder = {high: 0, normal: 1, low: 2}`.  Because
`priorityOrder[p]` is `undefined` for any other priority string, the
comparator then evaluates to NaN, which ECMAScript SortCompare coerces to
+0; `Array.prototype.sort` is stable, so such jobs keep their relative
positions.  `runJob` removes the job from the active set when it settles
and then `processQueue` shifts queued jobs while capacity remains. -/

structure JobW where
  priority : String
  arrival : Nat
deriving Repr, DecidableEq

def priorityRank (p : String) : Option Nat :=
  if p = "high" then some 0
  else if p = "normal" then some 1
  else if p = "low" then some 2
  else none

def prioCompare (a b : String) : Option Int :=
  match priorityRank a, priorityRank b with
  | some x, some y => some ((x : Int) - (y : Int))
  | _, _ => none

def sortCompareLE (a b : JobW) : Bool :=
  match prioCompare a.priority b.priority with
  | some v => decide (v ≤ 0)
  | none => true

def insertJob (j : JobW) : List JobW → List JobW
  | [] => [j]
  | x :: rest => if sortCompareLE x j then x :: insertJob j rest else j :: x :: rest

/-- Stable sort with the coerced comparator.  ECMAScript requires
`Array.prototype.sort` to be stable and coerces a NaN comparator result to
+0; for a consistent comparator the stable sorted order is unique, so a
stable insertion sort is an exact model, and on the two-element queues used
below every implementation performs the single comparison the same way. -/
def sortQueue (q : List JobW) : List JobW :=
  q.foldl (fun acc j => insertJob j acc) []

structure CMState where
  maxConcurrency : Nat
  active : Nat
  queue : List JobW
deriving Repr, DecidableEq

def CMState.submit (s : CMState) (j : JobW) : CMState :=
  if s.active < s.maxConcurrency then { s with active := s.active + 1 }
  else { s with queue := sortQueue (s.queue ++ [j]) }

def pqGo (maxConcurrency : Nat) : List JobW → Nat → Nat × List JobW
  | [], active => (active, [])
  | j :: rest, active =>
      if active < maxConcurrency then pqGo maxConcurrency rest (active + 1)
      else (active, j :: rest)

def CMState.processQueue (s : CMState) : CMState :=
  let r := pqGo s.maxConcurrency s.queue s.active
  { s with active := r.1, queue := r.2 }

def CMState.complete (s : CMState) : CMState :=
  CMState.processQueue { s with active := s.active - 1 }

inductive CMEvent
  | submit (j : JobW)
  | complete
deriving Repr, DecidableEq

def CMState.step (s : CMState) : CMEvent → CMState
  | CMEvent.submit j => s.submit j
  | CMEvent.complete => s.complete

def CMState.run (s : CMState) (es : List CMEvent) : CMState :=
  es.foldl CMState.step s

/-! ### SelectiveMonitor (`src/core/PerformanceManager.js`, lines 293-453)

`updateDeviceHealth` appends the outcome to the device's history (shifting
the oldest entry when the history exceeds 10), resets or increments
`consecutiveFailures`, recomputes `avgResponseTime` over the entries with
`h.healthy && h.responseTime` (JavaScript truthiness: a zero response time
is falsy and therefore excluded), and then calls `updateLocationHealth`,
which recomputes the owning location's health score and finally
`adjustMonitoringMode`.  Response times and scores are rationals; the
empty-locations case of `adjustMonitoringMode` (0/0 = NaN in JavaScript,
so both `< 50` and `< 75` are false) lands in the `normal` branch. -/

structure HistEntry where
  timestamp : Nat
  healthy : Bool
  responseTime : ℚ
deriving Repr, DecidableEq

structure DevHealth where
  location : String
  deviceUrl : String
  healthHistory : List HistEntry
  avgResponseTime : ℚ
  consecutiveFailures : Nat
deriving Repr, DecidableEq

structure LocationInfo where
  priority : String
  enabled : Bool
  deviceCount : Nat
  healthScore : ℚ
deriving Repr, DecidableEq

inductive Mode
  | normal
  | reduced
  | emergency
deriving Repr, DecidableEq

structure SMState where
  locationPriorities : List (String × LocationInfo)
  deviceHealth : List (String × DevHealth)
  monitoringMode : Mode
deriving Repr, DecidableEq

def scoresOf (s : SMState) : List ℚ :=
  s.locationPriorities.map (fun kv => kv.2.healthScore)

def modeOf (scores : List ℚ) : Mode :=
  if scores.length = 0 then Mode.normal
  else
    let avg := scores.sum / (scores.length : ℚ)
    if avg < 50 then Mode.emergency
    else if avg < 75 then Mode.reduced
    else Mode.normal

def SMState.adjustMonitoringMode (s : SMState) : SMState :=
  { s with monitoringMode := modeOf (scoresOf s) }

def devicesOf (s : SMState) (location : String) : List DevHealth :=
  (s.deviceHealth.map Prod.snd).filter (fun d => decide (d.location = location))

def isHealthyDevice (d : DevHealth) : Bool :=
  decide (d.consecutiveFailures < 3) && d.healthHistory.any (fun h => h.healthy)

def SMState.updateLocationHealth (s : SMState) (location : String) : SMState :=
  let locationDevices := devicesOf s location
  if locationDevices.length = 0 then s
  else
    let healthyDevices := (locationDevices.filter isHealthyDevice).length
    let healthScore : ℚ := ((healthyDevices : ℚ) / (locationDevices.length : ℚ)) * 100
    let s1 :=
      match alistGet location s.locationPriorities with
      | some info =>
          { s with locationPriorities :=
              alistSet location { info with healthScore := healthScore } s.locationPriorities }
      | none => s
    s1.adjustMonitoringMode

def deviceKey (location deviceUrl : String) : String :=
  location ++ ":" ++ deviceUrl

def SMState.updateDeviceHealth (s : SMState) (location deviceUrl : String)
    (isHealthy : Bool) (responseTime : ℚ) (now : Nat) : SMState :=
  let key := deviceKey location deviceUrl
  let h0 :=
    match alistGet key s.deviceHealth with
    | some h => h
    | none => ⟨location, deviceUrl, [], 0, 0⟩
  let hist1 := h0.healthHistory ++ [⟨now, isHealthy, responseTime⟩]
  let hist2 := if hist1.length > 10 then hist1.drop 1 else hist1
  let cf := if isHealthy then 0 else h0.consecutiveFailures + 1
  let valid := hist2.filter (fun h => h.healthy && decide (h.responseTime ≠ 0))
  let avg : ℚ :=
    if valid.length = 0 then 0
    else (valid.map HistEntry.responseTime).sum / (valid.length : ℚ)
  let h1 : DevHealth := ⟨location, deviceUrl, hist2, avg, cf⟩
  let s1 := { s with deviceHealth := alistSet key h1 s.deviceHealth }
  s1.updateLocationHealth location

def SMState.shouldMonitorDevice (s : SMState) (location deviceUrl priority : String) : Bool :=
  match alistGet location s.locationPriorities with
  | none => false
  | some info =>
      if !info.enabled then false
      else
        let dh := alistGet (deviceKey location deviceUrl) s.deviceHealth
        match s.monitoringMode with
        | Mode.emergency =>
            decide (priority = "high") ||
              (match dh with
               | some d => decide (d.consecutiveFailures > 0)
               | none => false)
        | Mode.reduced =>
            (match dh with
             | some d =>
                 if decide (priority = "low") && decide (d.consecutiveFailures = 0) &&
                    decide (d.healthHistory.length ≥ 5) then
                   !((d.healthHistory.drop (d.healthHistory.length - 5)).all
                       (fun h => h.healthy))
                 else true
             | none => true)
        | Mode.normal => true

/-! ### GracefulDegradation (`src/core/ResilienceManager.js`, lines 287-367)

`degradationLevel` ∈ {NORMAL, PARTIAL, CRITICAL} (constructors `norm`,
`part`, `crit`); `shouldSkipLocation` skips unhealthy low-priority
locations under PARTIAL degradation and all non-high-priority locations
under CRITICAL degradation. -/

inductive DegLevel
  | norm
  | part
  | crit
deriving Repr, DecidableEq

structure GDState where
  healthStatus : List (String × String)
  degradationLevel : DegLevel
deriving Repr, DecidableEq

def GDState.updateHealth (g : GDState) (location status : String) : GDState :=
  let g1 := { g with healthStatus := alistSet location status g.healthStatus }
  let locations := g1.healthStatus.map Prod.snd
  let total := locations.length
  if total = 0 then { g1 with degradationLevel := DegLevel.norm }
  else
    let healthy := (locations.filter (fun st => decide (st = "healthy"))).length
    let pct : ℚ := ((healthy : ℚ) / (total : ℚ)) * 100
    { g1 with degradationLevel :=
        if pct ≥ 80 then DegLevel.norm
        else if pct ≥ 50 then DegLevel.part
        else DegLevel.crit }

def GDState.shouldSkipLocation (g : GDState) (location priority : String) : Bool :=
  let health := alistGet location g.healthStatus
  if decide (g.degradationLevel = DegLevel.part) && decide (priority = "low") &&
     (match health with
      | some st => decide (st ≠ "healthy")
      | none => false) then
    true
  else if decide (g.degradationLevel = DegLevel.crit) && decide (priority ≠ "high") then
    true
  else
    false

/-! ### Monitoring cycle health flow
(`src/PhonebankMonitor.js`, `performMonitoringCycle`)

The cycle's for-loop runs synchronously: every target is filtered against
the SelectiveMonitor and GracefulDegradation state as of cycle start (the
health updates performed inside the submitted jobs only run after the
loop's microtask).  A target excluded by either filter has no job pushed,
so no check and no `updateDeviceHealth` call is made for it.  The health
effect of the cycle is the fold of `updateDeviceHealth` over the admitted
targets with their check outcomes. -/

structure Target where
  url : String
  location : String
  priority : String
deriving Repr, DecidableEq

def cycleAdmitted (s : SMState) (g : GDState) (targets : List Target) : List Target :=
  targets.filter (fun t =>
    s.shouldMonitorDevice t.location t.url t.priority &&
    !(g.shouldSkipLocation t.location t.priority))

def runCycleHealth (s : SMState) (g : GDState) (targets : List Target)
    (outcome : Target → Bool × ℚ) (now : Nat) : SMState :=
  (cycleAdmitted s g targets).foldl
    (fun st t => st.updateDeviceHealth t.location t.url (outcome t).1 (outcome t).2 now) s

/-! ### checkDevice (`src/PhonebankMonitor.js`, lines 277-360)

The check first consults the cache under the key `"device:" ++ url`.  On
a miss it runs
`circuitBreaker.execute(() => retryManager.executeWithRetry(...))`.  The
operation handed to the breaker is the `executeWithRetry` call, which
always RESOLVES (it catches every probe error and returns
`{success: false, ...}` after exhausting its attempts), so the breaker
receives `Except.ok` of the retry outcome.  Afterwards `checkDevice`
inspects `result.success`: the success branch builds an online result and
caches it; otherwise it throws `result.error`, which its own surrounding
catch turns into an offline result carrying the error message (the
breaker's OPEN fast-fail object takes the same path).  Errors are
modelled as their message strings.  `probeCalls` counts invocations of
the underlying probe operation, `cacheSet` whether `cacheManager.set`
ran, and `healthUpdate` the `isHealthy` flag passed to
`updateDeviceHealth` (`none` on the cache-hit path, which performs no
health update). -/

structure ProbeData where
  authorized : Nat
  unauthorized : Nat
  phonebankIp : String
deriving Repr, DecidableEq

inductive DevStatus
  | online
  | offline
deriving Repr, DecidableEq

structure DeviceData where
  url : String
  location : String
  priority : String
  status : DevStatus
  error : Option String
deriving Repr, DecidableEq

def onlineData (url location priority : String) : DeviceData :=
  ⟨url, location, priority, DevStatus.online, none⟩

def offlineData (url location priority msg : String) : DeviceData :=
  ⟨url, location, priority, DevStatus.offline, some msg⟩

structure CheckResult where
  cache : CacheState DeviceData
  breaker : CBState
  data : DeviceData
  probeCalls : Nat
  cacheSet : Bool
  healthUpdate : Option Bool

def checkDevice (cache : CacheState DeviceData) (cb : CBState)
    (url location priority : String) (now : Nat)
    (probe : Nat → Except String ProbeData) (maxRetries : Nat) (retryDelay : ℚ) :
    CheckResult :=
  let key := "device:" ++ url
  let g := cache.get key now
  match g.1 with
  | some cached => ⟨g.2, cb, cached, 0, false, none⟩
  | none =>
      let rt := executeWithRetry probe maxRetries retryDelay
      let ex := cb.execute now (Except.ok rt.outcome :
        Except String (RetryOutcome String ProbeData))
      match ex.2 with
      | CBExec.failFast =>
          ⟨g.2, ex.1, offlineData url location priority "Circuit breaker is OPEN",
            0, false, some false⟩
      | CBExec.ran (.error e) =>
          ⟨g.2, ex.1, offlineData url location priority e, rt.calls, false, some false⟩
      | CBExec.ran (.ok ro) =>
          match ro.success, ro.result with
          | true, some _ =>
              let dd := onlineData url location priority
              ⟨(g.2).set key dd now, ex.1, dd, rt.calls, true, some true⟩
          | _, _ =>
              let msg :=
                match ro.error with
                | some m => m
                | none => ""
              ⟨g.2, ex.1, offlineData url location priority msg, rt.calls, false, some false⟩

/-! ### Five failing checks followed by a sixth
(the circuit-breaker scenario of `spec.md` §8, run over the composed flow)
-/

def failingProbe : Nat → Except String ProbeData :=
  fun _ => Except.error "probe down"

def c1Step (s : CacheState DeviceData × CBState) (t : Nat) :
    CacheState DeviceData × CBState :=
  let r := checkDevice s.1 s.2 "u1" "loc1" "high" t failingProbe 3 2000
  (r.cache, r.breaker)

def c1Start : CacheState DeviceData × CBState :=
  (CacheState.init DeviceData (some true) none none, CBState.init (some 5) (some 60000))

def c1AfterFive : CacheState DeviceData × CBState :=
  [0, 1, 2, 3, 4].foldl c1Step c1Start

def c1SixthCall : CheckResult :=
  checkDevice c1AfterFive.1 c1AfterFive.2 "u1" "loc1" "high" 5 failingProbe 3 2000

/-! ### Statement helpers and concrete scenario states -/

/-- The record `updateDeviceHealth` starts from: the stored record, or the
fresh record the code builds when the device is unknown. -/
def oldRecOf (s : SMState) (loc url : String) : DevHealth :=
  match alistGet (deviceKey loc url) s.deviceHealth with
  | some h => h
  | none => ⟨loc, url, [], 0, 0⟩

/-- Average response time over the samples with `h.healthy && h.responseTime`
(successful samples with nonzero latency), 0 when there are none. -/
def avgValid (hist : List HistEntry) : ℚ :=
  let valid := hist.filter (fun h => h.healthy && decide (h.responseTime ≠ 0))
  if valid.length = 0 then 0
  else (valid.map HistEntry.responseTime).sum / (valid.length : ℚ)

/-- The bounded history after an update: the old history plus the new entry,
truncated to the last 10 entries. -/
def newHist (s : SMState) (loc url : String) (healthy : Bool) (rt : ℚ) (now : Nat) :
    List HistEntry :=
  let hist1 := (oldRecOf s loc url).healthHistory ++ [⟨now, healthy, rt⟩]
  hist1.drop (hist1.length - 10)

/-- The health score `updateLocationHealth` computes for a location:
(healthy devices / total devices) × 100. -/
def groupScore (s : SMState) (loc : String) : ℚ :=
  (((devicesOf s loc).filter isHealthyDevice).length : ℚ) /
    ((devicesOf s loc).length : ℚ) * 100

def c7State0 : SMState :=
  ⟨[("g", ⟨"high", true, 2, 100⟩)], [], Mode.normal⟩

/-- A state whose single device already has one successful check with a 0 ms
latency in its history. -/
def c7Pre : SMState :=
  ⟨[("g", ⟨"high", true, 1, 100⟩)],
    [(deviceKey "g" "d", ⟨"g", "d", [⟨0, true, 0⟩], 0, 0⟩)], Mode.normal⟩

def c9SM : SMState :=
  ⟨[("g", ⟨"high", true, 2, 100⟩)], [], Mode.emergency⟩

def c9GD : GDState :=
  ⟨[], DegLevel.norm⟩

def c9A : Target := ⟨"a", "g", "medium"⟩

def c9B : Target := ⟨"b", "g", "high"⟩

/-- The cycle checks target b (which fails) while target a is excluded by
`shouldMonitorDevice` (emergency mode, medium priority, no failure history). -/
def c9Final : SMState :=
  runCycleHealth c9SM c9GD [c9A, c9B] (fun _ => (false, 5)) 0

/-! ### Association-list lemmas -/

theorem alistGet_eq_none_of_not_mem {α : Type} (k : String) (l : List (String × α))
    (h : k ∉ l.map Prod.fst) : alistGet k l = none := by
  induction l with
  | nil => rfl
  | cons p rest ih =>
      simp only [List.map_cons, List.mem_cons, not_or] at h
      simp only [alistGet]
      rw [if_neg (fun hk => h.1 hk.symm)]
      exact ih h.2

theorem alistGet_erase_self {α : Type} (k : String) (l : List (String × α))
    (h : (l.map Prod.fst).Nodup) : alistGet k (alistErase k l) = none := by
  induction l with
  | nil => rfl
  | cons p rest ih =>
      simp only [List.map_cons, List.nodup_cons] at h
      simp only [alistErase]
      by_cases hk : p.1 = k
      · rw [if_pos hk]
        exact alistGet_eq_none_of_not_mem k rest (by rw [← hk]; exact h.1)
      · rw [if_neg hk]
        simp only [alistGet]
        rw [if_neg hk]
        exact ih h.2

theorem alistGet_set_self {α : Type} (k : String) (v : α) (l : List (String × α)) :
    alistGet k (alistSet k v l) = some v := by
  induction l with
  | nil => simp [alistSet, alistGet]
  | cons p rest ih =>
      simp only [alistSet]
      by_cases hk : p.1 = k
      · rw [if_pos hk]
        simp [alistGet, hk]
      · rw [if_neg hk]
        simp only [alistGet]
        rw [if_neg hk]
        exact ih

theorem alistGet_set_ne {α : Type} (k k2 : String) (v : α) (l : List (String × α))
    (h : k ≠ k2) : alistGet k (alistSet k2 v l) = alistGet k l := by
  induction l with
  | nil =>
      simp only [alistSet, alistGet, ite_eq_right_iff]
      exact fun hk => absurd hk.symm h
  | cons p rest ih =>
      simp only [alistSet]
      by_cases hk : p.1 = k2
      · rw [if_pos hk]
        simp only [alistGet]
        rw [if_neg (by rw [hk]; exact fun hkk => h hkk.symm),
          if_neg (by rw [hk]; exact fun hkk => h hkk.symm)]
      · rw [if_neg hk]
        simp only [alistGet]
        by_cases hpk : p.1 = k
        · rw [if_pos hpk, if_pos hpk]
        · rw [if_neg hpk, if_neg hpk]
          exact ih

theorem mem_snd_of_alistGet {α : Type} (k : String) (v : α) (l : List (String × α))
    (h : alistGet k l = some v) : v ∈ l.map Prod.snd := by
  induction l with
  | nil => exact absurd h (by simp [alistGet])
  | cons p rest ih =>
      simp only [alistGet] at h
      by_cases hk : p.1 = k
      · rw [if_pos hk] at h
        simp [Option.some_inj.mp h]
      · rw [if_neg hk] at h
        simp [ih h]

/-! ### Claim theorems -/

/-- C10: for every configuration value of `monitoring.enableCache` — including
`false` — the constructed CacheManager has `enabled = true`, because the
initializer `config.monitoring.enableCache || true` evaluates to `true`
whenever the left operand is falsy or `true`; the option can never disable
caching. -/
theorem cacheManager_enabled_never_false (V : Type) (enableCache : Option Bool)
    (cacheMaxSize cacheExpiration : Option Nat) :
    (CacheState.init V enableCache cacheMaxSize cacheExpiration).enabled = true := by
  cases enableCache with
  | none => rfl
  | some b => cases b <;> rfl

/-- C4 counterexample: with ttl = 300000 and an entry inserted at t = 0, a `get`
at exactly t = 300000 (so `now - insertedAt = ttl`) still returns the stored
value, because the code expires an entry only when `now - timestamp > ttl`;
the claim says this boundary case is a miss. -/
theorem cacheGet_ttl_boundary_counterexample :
    ((((CacheState.init Nat (some true) none none).set "t1" 42 0).get "t1" 300000).1 = some 42) ∧
    ¬ (300000 - 0 < ((CacheState.init Nat (some true) none none).set "t1" 42 0).ttl) := by
  exact ⟨rfl, by decide⟩

/-- C4 amended: `get` returns the stored value iff `now - insertedAt ≤ ttl`
(hit at the boundary `now - insertedAt = ttl`); strictly beyond the ttl the key
is removed from the table and the call is counted as a miss; within the ttl it
is a hit.  In particular, with ttl = 300000, a get at t = 299999 after a set at
t = 0 returns the value and a get at t = 300001 is a miss. -/
theorem cacheGet_ttl_amended {V : Type} (s : CacheState V) (key : String) (d : V)
    (ts now : Nat) (hen : s.enabled = true) (hnd : (s.cache.map Prod.fst).Nodup)
    (hlook : alistGet key s.cache = some (d, ts)) :
    ((s.get key now).1 = some d ↔ now - ts ≤ s.ttl) ∧
    (s.ttl < now - ts →
      alistGet key ((s.get key now).2.cache) = none ∧
      (s.get key now).2.missCount = s.missCount + 1) ∧
    (now - ts ≤ s.ttl → (s.get key now).2.hitCount = s.hitCount + 1) := by
  have hen2 : (s.enabled = false) = False := by simp [hen]
  by_cases h : s.ttl < now - ts
  · have hgt : now - ts > s.ttl := h
    refine ⟨?_, fun _ => ⟨?_, ?_⟩, fun hle => absurd h (not_lt.mpr hle)⟩
    · simp [CacheState.get, hen2, hlook, if_pos hgt, not_le.mpr h]
    · simp only [CacheState.get, hen2, if_false, hlook, if_pos hgt]
      exact alistGet_erase_self key s.cache hnd
    · simp [CacheState.get, hen2, hlook, if_pos hgt]
  · have hle : now - ts ≤ s.ttl := not_lt.mp h
    have hngt : ¬ (now - ts > s.ttl) := h
    refine ⟨?_, fun hgt => absurd hgt h, fun _ => ?_⟩
    · simp [CacheState.get, hen2, hlook, if_neg hngt, hle]
    · simp [CacheState.get, hen2, hlook, if_neg hngt]

/-- C4 amended, scenario witness: the boundary behaviour at a concrete state
(entry set at t = 0, ttl = 300000): hit at t = 299999, miss with removal at
t = 300001. -/
theorem cacheGet_ttl_amended_witness :
    ((((CacheState.init Nat (some true) none none).set "t1" 42 0).get "t1" 299999).1 = some 42) ∧
    alistGet "t1"
      (((((CacheState.init Nat (some true) none none).set "t1" 42 0).get "t1" 300001)).2.cache) =
      none := by
  have h1 := cacheGet_ttl_amended ((CacheState.init Nat (some true) none none).set "t1" 42 0)
    "t1" 42 0 299999 rfl (by decide) (by decide)
  have h2 := cacheGet_ttl_amended ((CacheState.init Nat (some true) none none).set "t1" 42 0)
    "t1" 42 0 300001 rfl (by decide) (by decide)
  exact ⟨h1.1.mpr (by decide), (h2.2.1 (by decide)).1⟩

/-- C2: code bug evidence — the orchestrator submits target priorities drawn
from {high, medium, low} (validated by `ConfigManager.validateConfig`), but the
queue comparator map `{high: 0, normal: 1, low: 2}` has no `medium` entry, so
the comparator returns NaN for any pair involving a medium job (ECMAScript
SortCompare coerces NaN to +0, and the stable sort then keeps arrival order).
Hence a medium-priority job enqueued after a low-priority job is NOT moved
ahead of it, while a normal-priority job would be. -/
theorem sortQueue_medium_not_promoted :
    priorityRank "medium" = none ∧
    prioCompare "medium" "low" = none ∧
    sortQueue [⟨"low", 0⟩, ⟨"medium", 1⟩] = [⟨"low", 0⟩, ⟨"medium", 1⟩] ∧
    sortQueue [⟨"low", 0⟩, ⟨"normal", 1⟩] = [⟨"normal", 1⟩, ⟨"low", 0⟩] := by
  decide

/-- C1: code bug evidence — with failureThreshold = 5 and
resetTimeout = 60000 ms, five consecutive `checkDevice` calls whose probe
attempts all fail leave the circuit breaker CLOSED with failureCount = 0 and
successCount = 5, because the operation the breaker protects is
`executeWithRetry`, which resolves with `{success: false}` instead of
throwing; `checkDevice` rethrows only after `execute` has returned, so
`onFailure` is unreachable from probe failures.  The 6th call therefore still
invokes the probe (maxRetries + 1 = 4 times) instead of failing fast. -/
theorem breaker_never_opens_under_probe_failures :
    c1AfterFive.2.state = CBCase.CLOSED ∧
    c1AfterFive.2.failureCount = 0 ∧
    c1AfterFive.2.successCount = 5 ∧
    c1SixthCall.probeCalls = 4 ∧
    c1SixthCall.data.status = DevStatus.offline ∧
    c1SixthCall.data.error = some "probe down" := by
  refine ⟨rfl, rfl, rfl, rfl, rfl, rfl⟩

theorem retryGo_spec {E R : Type} (op : Nat → Except E R) (rd : ℚ) (maxRetries : Nat) :
    ∀ fuel a last, a + fuel = maxRetries + 1 → 1 ≤ fuel →
      1 ≤ (retryGo op rd maxRetries a fuel last).calls ∧
      (retryGo op rd maxRetries a fuel last).calls ≤ fuel ∧
      (retryGo op rd maxRetries a fuel last).delays =
        (List.range ((retryGo op rd maxRetries a fuel last).calls - 1)).map
          (fun i => rd * (3 / 2 : ℚ) ^ (a + i)) ∧
      ((∀ j, j ≤ maxRetries → isErr (op j) = true) →
        (retryGo op rd maxRetries a fuel last).outcome =
          ⟨false, none, maxRetries + 1, errOf (op maxRetries)⟩) := by
  intro fuel
  induction fuel with
  | zero => intro a last _ h1; exact absurd h1 (by omega)
  | succ f ih =>
      intro a last hsum _
      have ha : a ≤ maxRetries := by omega
      cases hop : op a with
      | ok r =>
          simp only [retryGo, hop]
          refine ⟨le_refl 1, by omega, by simp, fun hfail => ?_⟩
          have := hfail a ha
          rw [hop] at this
          exact absurd this (by simp [isErr])
      | error e =>
          by_cases hlt : a < maxRetries
          · have hf : 1 ≤ f := by omega
            obtain ⟨ih1, ih2, ih3, ih4⟩ := ih (a + 1) (some e) (by omega) hf
            simp only [retryGo, hop, if_pos hlt]
            refine ⟨by omega, by omega, ?_, ih4⟩
            obtain ⟨m, hm⟩ := Nat.exists_eq_add_of_le ih1
            rw [hm] at ih3 ⊢
            simp only [Nat.add_sub_cancel_left] at ih3
            rw [show 1 + m + 1 - 1 = m + 1 from by omega]
            rw [List.range_succ_eq_map, List.map_cons, List.map_map]
            have hfun : ((fun i => rd * (3 / 2 : ℚ) ^ (a + i)) ∘ Nat.succ) =
                (fun i => rd * (3 / 2 : ℚ) ^ (a + 1 + i)) := by
              funext i
              simp only [Function.comp]
              rw [show a + Nat.succ i = a + 1 + i from by omega]
            rw [hfun, ← ih3]
            simp
          · have haeq : a = maxRetries := by omega
            simp only [retryGo, hop, if_neg hlt]
            subst haeq
            refine ⟨le_refl 1, by omega, by simp, fun _ => ?_⟩
            simp [errOf, hop]

/-- C5: for every operation and every failure pattern, `executeWithRetry`
invokes the operation at most maxRetries + 1 times, sleeps
`retryDelay * 1.5 ^ attempt` before retry number attempt + 1 (one delay per
retry, so there is never a delay after the final attempt), and when every
attempt fails it resolves — rather than throwing — with success = false,
attempt = maxRetries + 1 and the error of the last attempt. -/
theorem executeWithRetry_spec {E R : Type} (op : Nat → Except E R) (maxRetries : Nat)
    (rd : ℚ) :
    (executeWithRetry op maxRetries rd).calls ≤ maxRetries + 1 ∧
    (executeWithRetry op maxRetries rd).delays =
      (List.range ((executeWithRetry op maxRetries rd).calls - 1)).map
        (fun i => rd * (3 / 2 : ℚ) ^ i) ∧
    (executeWithRetry op maxRetries rd).delays.length =
      (executeWithRetry op maxRetries rd).calls - 1 ∧
    ((∀ j, j ≤ maxRetries → isErr (op j) = true) →
      (executeWithRetry op maxRetries rd).outcome =
        ⟨false, none, maxRetries + 1, errOf (op maxRetries)⟩) := by
  obtain ⟨h1, h2, h3, h4⟩ :=
    retryGo_spec op rd maxRetries (maxRetries + 1) 0 none (by omega) (by omega)
  have hd : (executeWithRetry op maxRetries rd).delays =
      (List.range ((executeWithRetry op maxRetries rd).calls - 1)).map
        (fun i => rd * (3 / 2 : ℚ) ^ i) := by
    simpa [executeWithRetry] using h3
  refine ⟨h2, hd, ?_, h4⟩
  simp [hd]

/-- C5 witness: a probe that always fails, with maxRetries = 3 and
retryDelay = 2000: four invocations in total, delays 2000, 3000, 4500, and a
resolved failure carrying the last error. -/
theorem executeWithRetry_spec_witness :
    (executeWithRetry (fun _ => (Except.error "probe down" : Except String Nat)) 3 2000).calls ≤
      4 ∧
    (executeWithRetry (fun _ => (Except.error "probe down" : Except String Nat)) 3 2000).outcome =
      ⟨false, none, 4, some "probe down"⟩ := by
  have h := executeWithRetry_spec (fun _ => (Except.error "probe down" : Except String Nat)) 3 2000
  exact ⟨h.1, h.2.2.2 (fun j _ => rfl)⟩

theorem mem_insertJob (x j : JobW) (l : List JobW) :
    x ∈ insertJob j l ↔ x = j ∨ x ∈ l := by
  induction l with
  | nil => simp [insertJob]
  | cons y rest ih =>
      simp only [insertJob]
      by_cases hc : sortCompareLE y j
      · rw [if_pos hc]
        simp only [List.mem_cons, ih]
        tauto
      · rw [if_neg hc]
        simp

theorem mem_foldl_insertJob (x : JobW) :
    ∀ (q acc : List JobW), x ∈ acc ∨ x ∈ q →
      x ∈ q.foldl (fun acc j => insertJob j acc) acc
  | [], acc, h => by simpa using h.resolve_right (by simp)
  | j :: rest, acc, h => by
      simp only [List.foldl_cons]
      apply mem_foldl_insertJob x rest
      rcases h with hx | hx
      · exact Or.inl ((mem_insertJob x j acc).mpr (Or.inr hx))
      · rcases List.mem_cons.mp hx with hxe | hx2
        · exact Or.inl ((mem_insertJob x j acc).mpr (Or.inl hxe))
        · exact Or.inr hx2

theorem mem_sortQueue_of_mem (x : JobW) (q : List JobW) (h : x ∈ q) : x ∈ sortQueue q :=
  mem_foldl_insertJob x q [] (Or.inr h)

theorem pqGo_le (maxC : Nat) :
    ∀ (q : List JobW) (a : Nat), a ≤ maxC → (pqGo maxC q a).1 ≤ maxC
  | [], a, h => h
  | j :: rest, a, h => by
      simp only [pqGo]
      by_cases hlt : a < maxC
      · rw [if_pos hlt]
        exact pqGo_le maxC rest (a + 1) (by omega)
      · rw [if_neg hlt]
        exact h

theorem step_active_le (s : CMState) (e : CMEvent) (h : s.active ≤ s.maxConcurrency) :
    (s.step e).active ≤ s.maxConcurrency := by
  cases e with
  | submit j =>
      simp only [CMState.step, CMState.submit]
      by_cases hlt : s.active < s.maxConcurrency
      · rw [if_pos hlt]
        show s.active + 1 ≤ s.maxConcurrency
        omega
      · rw [if_neg hlt]; exact h
  | complete =>
      simp only [CMState.step, CMState.complete, CMState.processQueue]
      exact pqGo_le s.maxConcurrency s.queue (s.active - 1) (by omega)

theorem step_max_eq (s : CMState) (e : CMEvent) :
    (s.step e).maxConcurrency = s.maxConcurrency := by
  cases e with
  | submit j =>
      simp only [CMState.step, CMState.submit]
      by_cases hlt : s.active < s.maxConcurrency
      · rw [if_pos hlt]
      · rw [if_neg hlt]
  | complete => rfl

theorem run_invariant :
    ∀ (es : List CMEvent) (s : CMState), s.active ≤ s.maxConcurrency →
      (CMState.run s es).active ≤ (CMState.run s es).maxConcurrency ∧
      (CMState.run s es).maxConcurrency = s.maxConcurrency
  | [], s, h => ⟨h, rfl⟩
  | e :: rest, s, h => by
      have h1 : (s.step e).active ≤ (s.step e).maxConcurrency := by
        rw [step_max_eq]; exact step_active_le s e h
      have h2 := run_invariant rest (s.step e) h1
      refine ⟨h2.1, ?_⟩
      show (CMState.run (s.step e) rest).maxConcurrency = s.maxConcurrency
      rw [h2.2, step_max_eq]

/-- C6: for every sequence of submissions and completions, starting from an
idle manager the number of simultaneously active jobs never exceeds
maxConcurrency; moreover a job submitted while the active count has reached
maxConcurrency leaves the active count unchanged and lands in the wait queue
(so it can only start later, from `processQueue`, which runs when a job
completes). -/
theorem concurrency_never_exceeded (maxC : Nat) (es : List CMEvent) :
    (CMState.run ⟨maxC, 0, []⟩ es).active ≤ maxC ∧
    (∀ (s : CMState) (j : JobW), maxC ≤ s.active → s.maxConcurrency = maxC →
      (s.submit j).active = s.active ∧ j ∈ (s.submit j).queue) := by
  constructor
  · have h := run_invariant es ⟨maxC, 0, []⟩ (by simp)
    calc (CMState.run ⟨maxC, 0, []⟩ es).active ≤
        (CMState.run ⟨maxC, 0, []⟩ es).maxConcurrency := h.1
      _ = maxC := h.2
  · intro s j hge hmax
    have hnlt : ¬ (s.active < s.maxConcurrency) := by omega
    constructor
    · simp [CMState.submit, if_neg hnlt]
    · simp only [CMState.submit, if_neg hnlt]
      exact mem_sortQueue_of_mem j (s.queue ++ [j]) (by simp)

/-- C6 witness: a saturated manager (2 active of maxConcurrency 2) queues a
newly submitted job without raising the active count. -/
theorem concurrency_never_exceeded_witness :
    ((⟨2, 2, []⟩ : CMState).submit ⟨"high", 7⟩).active = 2 ∧
    (⟨"high", 7⟩ : JobW) ∈ ((⟨2, 2, []⟩ : CMState).submit ⟨"high", 7⟩).queue := by
  have h := (concurrency_never_exceeded 2 []).2 ⟨2, 2, []⟩ ⟨"high", 7⟩ (by decide) rfl
  exact h

theorem execute_ok_cases {E V : Type} (cb : CBState) (now : Nat) (v : V) :
    (cb.execute now (Except.ok v) : CBState × CBExec E V).2 = CBExec.failFast ∨
    (cb.execute now (Except.ok v) : CBState × CBExec E V).2 = CBExec.ran (Except.ok v) := by
  simp only [CBState.execute]
  by_cases h1 : cb.state = CBCase.OPEN
  · rw [if_pos h1]
    by_cases h2 : now - cb.lastFailureTime > cb.resetTimeout
    · rw [if_pos h2]
      right
      rfl
    · rw [if_neg h2]
      left
      rfl
  · rw [if_neg h1]
    right
    rfl

/-- C3: when the cache misses, every failure anywhere in the composed check —
probe errors exhausting the retries, a timeout surfacing as the last retry
error, or the breaker failing fast — leaves `checkDevice` returning a
structured result rather than propagating: the result is offline exactly when
nothing was cached, an offline result always carries an error message and an
unhealthy health update, and a retry outcome with `success = false` always
produces an offline result (so `cacheManager.set` runs only on the success
path). -/
theorem checkDevice_failure_contract (cache : CacheState DeviceData) (cb : CBState)
    (url location priority : String) (now : Nat) (probe : Nat → Except String ProbeData)
    (maxRetries : Nat) (rd : ℚ)
    (hmiss : (cache.get ("device:" ++ url) now).1 = none) :
    ((checkDevice cache cb url location priority now probe maxRetries rd).data.status =
        DevStatus.offline ↔
      (checkDevice cache cb url location priority now probe maxRetries rd).cacheSet = false) ∧
    ((checkDevice cache cb url location priority now probe maxRetries rd).data.status =
        DevStatus.offline →
      ((checkDevice cache cb url location priority now probe maxRetries rd).data.error).isSome =
          true ∧
      (checkDevice cache cb url location priority now probe maxRetries rd).healthUpdate =
          some false) ∧
    ((executeWithRetry probe maxRetries rd).outcome.success = false →
      (checkDevice cache cb url location priority now probe maxRetries rd).data.status =
        DevStatus.offline) := by
  have hex := execute_ok_cases (E := String) cb now (executeWithRetry probe maxRetries rd).outcome
  simp only [checkDevice, hmiss]
  rcases hex with hff | hran
  · rw [hff]
    simp [offlineData]
  · rw [hran]
    cases hs : (executeWithRetry probe maxRetries rd).outcome.success
    · cases hr : (executeWithRetry probe maxRetries rd).outcome.result
      · simp [hs, hr, offlineData]
      · simp [hs, hr, offlineData]
    · cases hr : (executeWithRetry probe maxRetries rd).outcome.result
      · simp [hs, hr, offlineData]
      · simp [hs, hr, onlineData]

/-- C3 witness: a fresh monitor (empty cache, breaker CLOSED) checking a
device whose probe always fails yields an offline result with an error
message, no cache write, and an unhealthy health update. -/
theorem checkDevice_failure_contract_witness :
    (checkDevice (CacheState.init DeviceData (some true) none none)
      (CBState.init (some 5) (some 60000)) "u1" "loc1" "high" 0 failingProbe 3 2000).data.status =
        DevStatus.offline ∧
    ((checkDevice (CacheState.init DeviceData (some true) none none)
      (CBState.init (some 5) (some 60000)) "u1" "loc1" "high" 0 failingProbe 3
        2000).data.error).isSome = true ∧
    (checkDevice (CacheState.init DeviceData (some true) none none)
      (CBState.init (some 5) (some 60000)) "u1" "loc1" "high" 0 failingProbe 3 2000).cacheSet =
        false := by
  have h := checkDevice_failure_contract (CacheState.init DeviceData (some true) none none)
    (CBState.init (some 5) (some 60000)) "u1" "loc1" "high" 0 failingProbe 3 2000 rfl
  have hoff := h.2.2 rfl
  exact ⟨hoff, (h.2.1 hoff).1, h.1.mp hoff⟩

/-! ### SelectiveMonitor frame lemmas -/

theorem updateLocationHealth_deviceHealth (s : SMState) (loc : String) :
    (s.updateLocationHealth loc).deviceHealth = s.deviceHealth := by
  simp only [SMState.updateLocationHealth]
  by_cases h : (devicesOf s loc).length = 0
  · rw [if_pos h]
  · rw [if_neg h]
    rcases halist : alistGet loc s.locationPriorities with _ | info <;>
      simp [halist, SMState.adjustMonitoringMode]

theorem updateLocationHealth_locPrio_other (s : SMState) (loc l : String) (h : l ≠ loc) :
    alistGet l (s.updateLocationHealth loc).locationPriorities =
      alistGet l s.locationPriorities := by
  simp only [SMState.updateLocationHealth]
  by_cases h0 : (devicesOf s loc).length = 0
  · rw [if_pos h0]
  · rw [if_neg h0]
    rcases halist : alistGet loc s.locationPriorities with _ | info
    · simp [halist, SMState.adjustMonitoringMode]
    · simp only [halist, SMState.adjustMonitoringMode]
      exact alistGet_set_ne l loc _ _ h

theorem updateDeviceHealth_other_key (s : SMState) (loc url : String) (hb : Bool)
    (rt : ℚ) (now : Nat) (k : String) (hk : k ≠ deviceKey loc url) :
    alistGet k (s.updateDeviceHealth loc url hb rt now).deviceHealth =
      alistGet k s.deviceHealth := by
  simp only [SMState.updateDeviceHealth]
  rw [updateLocationHealth_deviceHealth]
  exact alistGet_set_ne k (deviceKey loc url) _ _ hk

theorem updateDeviceHealth_other_loc (s : SMState) (loc url : String) (hb : Bool)
    (rt : ℚ) (now : Nat) (l : String) (hl : l ≠ loc) :
    alistGet l (s.updateDeviceHealth loc url hb rt now).locationPriorities =
      alistGet l s.locationPriorities := by
  simp only [SMState.updateDeviceHealth]
  rw [updateLocationHealth_locPrio_other _ _ _ hl]

theorem devicesOf_set_length_ne_zero (s : SMState) (key loc : String) (rec : DevHealth)
    (hloc : rec.location = loc) :
    (devicesOf { s with deviceHealth := alistSet key rec s.deviceHealth } loc).length ≠ 0 := by
  have hmem : rec ∈ (alistSet key rec s.deviceHealth).map Prod.snd :=
    mem_snd_of_alistGet key rec _ (alistGet_set_self key rec s.deviceHealth)
  have hmem2 : rec ∈ devicesOf { s with deviceHealth := alistSet key rec s.deviceHealth } loc := by
    simp only [devicesOf]
    exact List.mem_filter.mpr ⟨hmem, by simp [hloc]⟩
  intro hzero
  rw [List.length_eq_zero] at hzero
  rw [hzero] at hmem2
  exact absurd hmem2 (List.not_mem_nil rec)

theorem updateLocationHealth_sets_score (s : SMState) (loc : String)
    (hne : ¬ (devicesOf s loc).length = 0) (info : LocationInfo)
    (hinfo : alistGet loc s.locationPriorities = some info) :
    alistGet loc (s.updateLocationHealth loc).locationPriorities =
      some { info with healthScore := groupScore s loc } := by
  simp only [SMState.updateLocationHealth]
  rw [if_neg hne]
  simp only [hinfo, SMState.adjustMonitoringMode]
  rw [alistGet_set_self]
  rfl

theorem set_then_updateLoc_score (s s2 : SMState) (key loc : String) (rec : DevHealth)
    (hs2 : s2 = { s with deviceHealth := alistSet key rec s.deviceHealth })
    (hrl : rec.location = loc) (info : LocationInfo)
    (hinfo : alistGet loc s.locationPriorities = some info) :
    alistGet loc (s2.updateLocationHealth loc).locationPriorities =
      some { info with healthScore := groupScore s2 loc } := by
  subst hs2
  exact updateLocationHealth_sets_score _ loc (devicesOf_set_length_ne_zero s key loc rec hrl)
    info hinfo

theorem groupScore_updateLocationHealth (s : SMState) (loc l : String) :
    groupScore (s.updateLocationHealth loc) l = groupScore s l := by
  simp only [groupScore, devicesOf, updateLocationHealth_deviceHealth]

theorem updateLocationHealth_mode (s : SMState) (loc : String)
    (hne : ¬ (devicesOf s loc).length = 0) :
    (s.updateLocationHealth loc).monitoringMode =
      modeOf (scoresOf (s.updateLocationHealth loc)) := by
  simp only [SMState.updateLocationHealth]
  rw [if_neg hne]
  rcases halist : alistGet loc s.locationPriorities with _ | info <;>
    simp [halist, SMState.adjustMonitoringMode, scoresOf]

theorem trunc_eq (l : List HistEntry) (h : l.length ≤ 11) :
    (if l.length > 10 then l.drop 1 else l) = l.drop (l.length - 10) := by
  by_cases hgt : l.length > 10
  · rw [if_pos hgt, show l.length - 10 = 1 from by omega]
  · rw [if_neg hgt, show l.length - 10 = 0 from by omega, List.drop_zero]

theorem updateDeviceHealth_record (s : SMState) (loc url : String) (healthy : Bool)
    (rt : ℚ) (now : Nat) (hlen : (oldRecOf s loc url).healthHistory.length ≤ 10) :
    alistGet (deviceKey loc url) (s.updateDeviceHealth loc url healthy rt now).deviceHealth =
      some ⟨loc, url, newHist s loc url healthy rt now,
        avgValid (newHist s loc url healthy rt now),
        if healthy then 0 else (oldRecOf s loc url).consecutiveFailures + 1⟩ := by
  simp only [SMState.updateDeviceHealth]
  rw [updateLocationHealth_deviceHealth, alistGet_set_self]
  simp only [newHist, avgValid, oldRecOf] at hlen ⊢
  rw [trunc_eq _ (by simp only [List.length_append, List.length_cons, List.length_nil]; omega)]

theorem newHist_length_le (s : SMState) (loc url : String) (healthy : Bool) (rt : ℚ)
    (now : Nat) (hlen : (oldRecOf s loc url).healthHistory.length ≤ 10) :
    (newHist s loc url healthy rt now).length ≤ 10 := by
  simp only [newHist, List.length_drop, List.length_append, List.length_cons,
    List.length_nil]
  omega

theorem updateDeviceHealth_score (s : SMState) (loc url : String) (healthy : Bool)
    (rt : ℚ) (now : Nat) (info : LocationInfo)
    (hinfo : alistGet loc s.locationPriorities = some info) :
    ∃ info2 : LocationInfo,
      alistGet loc (s.updateDeviceHealth loc url healthy rt now).locationPriorities =
        some info2 ∧
      info2.healthScore = groupScore (s.updateDeviceHealth loc url healthy rt now) loc := by
  simp only [SMState.updateDeviceHealth]
  refine ⟨_, set_then_updateLoc_score s _ (deviceKey loc url) loc _ rfl rfl info hinfo, ?_⟩
  exact (groupScore_updateLocationHealth _ _ _).symm

/-- C7 counterexample: a device with successful samples of latency 0 and 10 in
its history stores `avgResponseTime = 10`, because the code averages over
`h.healthy && h.responseTime` and JavaScript truthiness excludes the
zero-latency success; the mean over all successful samples, as the claim
states it, would be (0 + 10) / 2 = 5. -/
theorem updateDeviceHealth_avg_counterexample :
    (alistGet (deviceKey "g" "d")
        (c7Pre.updateDeviceHealth "g" "d" true 10 1).deviceHealth).map
      DevHealth.avgResponseTime = some 10 ∧
    ((([⟨0, true, 0⟩, ⟨1, true, 10⟩] : List HistEntry).filter (fun h => h.healthy)).map
        HistEntry.responseTime).sum /
      ((([⟨0, true, 0⟩, ⟨1, true, 10⟩] : List HistEntry).filter
        (fun h => h.healthy)).length : ℚ) = 5 ∧
    (10 : ℚ) ≠ 5 := by
  have h := updateDeviceHealth_record c7Pre "g" "d" true 10 1 (by decide)
  refine ⟨?_, by norm_num [HistEntry.healthy], by norm_num⟩
  rw [h]
  simp only [Option.map_some]
  have hh : newHist c7Pre "g" "d" true 10 1 =
      [⟨0, true, 0⟩, ⟨1, true, 10⟩] := by
    simp [newHist, oldRecOf, c7Pre, alistGet, deviceKey]
  simp only [hh, avgValid]
  norm_num

/-- C7 amended: each health update keeps the record bounded to the last 10
outcomes, resets `consecutiveFailures` to 0 on success and increments it on
failure, stores the average latency over the successful samples WITH NONZERO
LATENCY (0 when there are none; a 0 ms success is excluded by the JavaScript
truthiness test `h.responseTime`), and recomputes the owning group's health
score as (targets with consecutiveFailures < 3 and at least one success in
history) / (total targets of the group) × 100 — for a 6-target group with 4
targets at consecutiveFailures ≥ 3 this is 100/3 ≈ 33.3. -/
theorem updateDeviceHealth_amended (s : SMState) (loc url : String) (healthy : Bool)
    (rt : ℚ) (now : Nat)
    (hlen : (oldRecOf s loc url).healthHistory.length ≤ 10)
    (hinfo : (alistGet loc s.locationPriorities).isSome = true) :
    alistGet (deviceKey loc url) (s.updateDeviceHealth loc url healthy rt now).deviceHealth =
      some ⟨loc, url, newHist s loc url healthy rt now,
        avgValid (newHist s loc url healthy rt now),
        if healthy then 0 else (oldRecOf s loc url).consecutiveFailures + 1⟩ ∧
    (newHist s loc url healthy rt now).length ≤ 10 ∧
    (∃ info2 : LocationInfo,
      alistGet loc (s.updateDeviceHealth loc url healthy rt now).locationPriorities =
        some info2 ∧
      info2.healthScore = groupScore (s.updateDeviceHealth loc url healthy rt now) loc) := by
  obtain ⟨info, hinfo2⟩ := Option.isSome_iff_exists.mp hinfo
  exact ⟨updateDeviceHealth_record s loc url healthy rt now hlen,
    newHist_length_le s loc url healthy rt now hlen,
    updateDeviceHealth_score s loc url healthy rt now info hinfo2⟩

/-- C7 amended witness: a first successful 5 ms check of a known location
records history [one success], average 5, consecutiveFailures 0, and a
recomputed group score. -/
theorem updateDeviceHealth_amended_witness :
    alistGet (deviceKey "g" "d") (c7State0.updateDeviceHealth "g" "d" true 5 0).deviceHealth =
      some ⟨"g", "d", newHist c7State0 "g" "d" true 5 0,
        avgValid (newHist c7State0 "g" "d" true 5 0), 0⟩ := by
  have h := updateDeviceHealth_amended c7State0 "g" "d" true 5 0 (by decide) (by decide)
  exact h.1

/-- C8: monitoringMode is a pure function of the current per-group health
scores — after any health update it equals `modeOf` applied to the state's
scores (the update always reaches `adjustMonitoringMode`, since the updated
location has at least its own device), two states with identical score lists
yield the same mode, and for a nonempty score list the mode is emergency iff
the mean is < 50, reduced iff the mean is in [50, 75), and normal otherwise.
-/
theorem monitoringMode_pure_function (s : SMState) (loc url : String) (hb : Bool)
    (rt : ℚ) (now : Nat) :
    ((s.updateDeviceHealth loc url hb rt now).monitoringMode =
      modeOf (scoresOf (s.updateDeviceHealth loc url hb rt now))) ∧
    (∀ t1 t2 : SMState, scoresOf t1 = scoresOf t2 →
      (t1.adjustMonitoringMode).monitoringMode =
        (t2.adjustMonitoringMode).monitoringMode) ∧
    (∀ sc : List ℚ, sc ≠ [] →
      ((modeOf sc = Mode.emergency ↔ sc.sum / (sc.length : ℚ) < 50) ∧
       (modeOf sc = Mode.reduced ↔
         50 ≤ sc.sum / (sc.length : ℚ) ∧ sc.sum / (sc.length : ℚ) < 75) ∧
       (modeOf sc = Mode.normal ↔ 75 ≤ sc.sum / (sc.length : ℚ)))) := by
  refine ⟨?_, ?_, ?_⟩
  · simp only [SMState.updateDeviceHealth]
    exact updateLocationHealth_mode _ loc
      (devicesOf_set_length_ne_zero s (deviceKey loc url) loc _ rfl)
  · intro t1 t2 h
    show modeOf (scoresOf t1) = modeOf (scoresOf t2)
    rw [h]
  · intro sc hsc
    have hlen : ¬ (sc.length = 0) := fun h0 => hsc (List.length_eq_zero.mp h0)
    rw [show modeOf sc = (if sc.sum / (sc.length : ℚ) < 50 then Mode.emergency
        else if sc.sum / (sc.length : ℚ) < 75 then Mode.reduced else Mode.normal) from by
      simp [modeOf, hlen]]
    by_cases h50 : sc.sum / (sc.length : ℚ) < 50
    · rw [if_pos h50]
      refine ⟨by simp [h50], ?_, ?_⟩
      · exact ⟨fun hc => Mode.noConfusion hc, fun hc => absurd hc.1 (not_le.mpr h50)⟩
      · refine ⟨fun hc => Mode.noConfusion hc, fun hc => ?_⟩
        have h75 : sc.sum / (sc.length : ℚ) < 75 := lt_trans h50 (by norm_num)
        exact absurd hc (not_le.mpr h75)
    · rw [if_neg h50]
      by_cases h75 : sc.sum / (sc.length : ℚ) < 75
      · rw [if_pos h75]
        refine ⟨⟨fun hc => Mode.noConfusion hc, fun hc => absurd hc h50⟩, ?_, ?_⟩
        · exact ⟨fun _ => ⟨not_lt.mp h50, h75⟩, fun _ => rfl⟩
        · exact ⟨fun hc => Mode.noConfusion hc, fun hc => absurd h75 (not_lt.mpr hc)⟩
      · rw [if_neg h75]
        refine ⟨⟨fun hc => Mode.noConfusion hc, fun hc => absurd hc h50⟩, ?_, ?_⟩
        · exact ⟨fun hc => Mode.noConfusion hc, fun hc => absurd hc.2 h75⟩
        · exact ⟨fun _ => not_lt.mp h75, fun _ => rfl⟩

/-- C8 witness: the mode after a concrete health update equals `modeOf` of the
resulting scores, and a single group with score 40 (mean 40 < 50) forces
emergency mode. -/
theorem monitoringMode_pure_function_witness :
    (c7State0.updateDeviceHealth "g" "d" true 5 0).monitoringMode =
      modeOf (scoresOf (c7State0.updateDeviceHealth "g" "d" true 5 0)) ∧
    modeOf [(40 : ℚ)] = Mode.emergency := by
  have h := monitoringMode_pure_function c7State0 "g" "d" true 5 0
  refine ⟨h.1, ?_⟩
  refine (h.2.2 [(40 : ℚ)] (by simp)).1.mpr ?_
  norm_num

/-! ### Cycle skip lemmas (C9) -/

theorem foldl_update_key (outcome : Target → Bool × ℚ) (now : Nat) (k : String) :
    ∀ (ts : List Target) (s : SMState),
      (∀ t2 ∈ ts, deviceKey t2.location t2.url ≠ k) →
      alistGet k ((ts.foldl (fun st t =>
          st.updateDeviceHealth t.location t.url (outcome t).1 (outcome t).2 now)
        s)).deviceHealth = alistGet k s.deviceHealth
  | [], _, _ => rfl
  | t :: rest, s, h => by
      simp only [List.foldl_cons]
      rw [foldl_update_key outcome now k rest _
        (fun t2 ht2 => h t2 (List.mem_cons_of_mem t ht2))]
      exact updateDeviceHealth_other_key s t.location t.url _ _ now k
        (h t (List.mem_cons_self t rest)).symm

theorem foldl_update_loc (outcome : Target → Bool × ℚ) (now : Nat) (l : String) :
    ∀ (ts : List Target) (s : SMState), (∀ t2 ∈ ts, t2.location ≠ l) →
      alistGet l ((ts.foldl (fun st t =>
          st.updateDeviceHealth t.location t.url (outcome t).1 (outcome t).2 now)
        s)).locationPriorities = alistGet l s.locationPriorities
  | [], _, _ => rfl
  | t :: rest, s, h => by
      simp only [List.foldl_cons]
      rw [foldl_update_loc outcome now l rest _
        (fun t2 ht2 => h t2 (List.mem_cons_of_mem t ht2))]
      exact updateDeviceHealth_other_loc s t.location t.url _ _ now l
        (h t (List.mem_cons_self t rest)).symm

/-- C9 counterexample: target a (priority medium, no failure history) is
excluded by `shouldMonitorDevice` under emergency mode, yet its group's health
score changes from 100 to 0 during the cycle, because group-mate b is checked
and fails.  Skipping does leave the skipped target's own record alone, but not
its group's score. -/
theorem cycle_skip_group_score_counterexample :
    c9SM.shouldMonitorDevice c9A.location c9A.url c9A.priority = false ∧
    (alistGet "g" c9SM.locationPriorities).map LocationInfo.healthScore = some 100 ∧
    (alistGet "g" c9Final.locationPriorities).map LocationInfo.healthScore = some 0 := by
  have hadm : cycleAdmitted c9SM c9GD [c9A, c9B] = [c9B] := by decide
  refine ⟨by decide, rfl, ?_⟩
  have hfin : c9Final = c9SM.updateDeviceHealth "g" "b" false 5 0 := by
    rw [c9Final, runCycleHealth, hadm]
    rfl
  rw [hfin]
  simp only [SMState.updateDeviceHealth, SMState.updateLocationHealth,
    SMState.adjustMonitoringMode, oldRecOf, devicesOf, isHealthyDevice, deviceKey, c9SM,
    alistGet, alistSet, scoresOf, modeOf]
  norm_num [isHealthyDevice]

/-- C9 amended: a target excluded from a cycle by `shouldMonitorDevice` or
`shouldSkipLocation` is not admitted (no check runs for it), and its own
HealthRecord is untouched by the cycle; its group's health score is unchanged
by the skip itself, and stays unchanged whenever no other target of the same
group is checked in that cycle (it may still move when a group-mate is
checked). -/
theorem cycle_skip_no_own_penalty (s : SMState) (g : GDState) (targets : List Target)
    (outcome : Target → Bool × ℚ) (now : Nat) (t : Target)
    (hskip : s.shouldMonitorDevice t.location t.url t.priority = false ∨
      g.shouldSkipLocation t.location t.priority = true)
    (hkeys : ∀ t2 ∈ cycleAdmitted s g targets,
      deviceKey t2.location t2.url ≠ deviceKey t.location t.url) :
    t ∉ cycleAdmitted s g targets ∧
    alistGet (deviceKey t.location t.url)
        (runCycleHealth s g targets outcome now).deviceHealth =
      alistGet (deviceKey t.location t.url) s.deviceHealth ∧
    ((∀ t2 ∈ cycleAdmitted s g targets, t2.location ≠ t.location) →
      alistGet t.location (runCycleHealth s g targets outcome now).locationPriorities =
        alistGet t.location s.locationPriorities) := by
  refine ⟨?_, ?_, ?_⟩
  · intro hmem
    have hc := (List.mem_filter.mp hmem).2
    rcases hskip with h1 | h1 <;> rw [h1] at hc <;> simp at hc
  · exact foldl_update_key outcome now (deviceKey t.location t.url)
      (cycleAdmitted s g targets) s hkeys
  · intro hlocs
    exact foldl_update_loc outcome now t.location (cycleAdmitted s g targets) s hlocs

/-- C9 amended witness: in the concrete cycle above, the record of the skipped
target a is untouched (it is absent before and after). -/
theorem cycle_skip_no_own_penalty_witness :
    (⟨"a", "g", "medium"⟩ : Target) ∉ cycleAdmitted c9SM c9GD [c9A, c9B] ∧
    alistGet (deviceKey "g" "a") c9Final.deviceHealth =
      alistGet (deviceKey "g" "a") c9SM.deviceHealth := by
  have h := cycle_skip_no_own_penalty c9SM c9GD [c9A, c9B] (fun _ => (false, 5)) 0 c9A
    (Or.inl (by decide)) (by decide)
  exact ⟨h.1, h.2.1⟩

end Phonebank
